import Mathlib

/-!
Shallow embedding of `src/cmd/linuxkit/pkglib/docker.go` (package `pkglib`),
the thin wrappers around Docker CLI invocations of linuxkit: the build-arg
assembly and error classification of `command`, the soft-failure logic of
`pull`, the manifest-list composition of `manifestPush`, the notary argument
derivation and validation of `signManifest`, and the `pushWithManifest`
pipeline.

External collaborators (the docker engine process, the credential store, the
manifest-tool registry client, the notary process, `os.LookupEnv` and the
JSON decoder of `encoding/json`) are modelled as oracle parameters: the
embedding computes the exact request each Go call site would hand to the
collaborator (argument vectors, the `PushManifestList` call, the notary
argument list) and the collaborator outcome is a parameter.
-/

set_option autoImplicit false

namespace Pkglib

/-- Go `strings.Split` with a single-character separator, on `List Char`.
`strings.Split` with a non-empty separator always returns at least one part;
splitting the empty string yields `[""]`. -/
def splitChar (sep : Char) : List Char → List (List Char)
  | [] => [[]]
  | c :: rest =>
    let r := splitChar sep rest
    if c = sep then [] :: r
    else
      match r with
      | t :: ts => (c :: t) :: ts
      | [] => [[c]]

/-- Go `strings.Split s (String.singleton sep)` at the `String` level. -/
def goSplit (s : String) (sep : Char) : List String :=
  (splitChar sep s.data).map (fun l => String.mk l)

/-- Go `path.Join(a, b)` for the one shape used in this file (`b` relative,
non-empty): empty `a` yields `b`, otherwise the slash-joined path. -/
def pathJoin (a b : String) : String :=
  if a = "" then b else a ++ "/" ++ b

-- Constants of the source file.

def registryServer : String := "https://index.docker.io/v1/"

def notaryServer : String := "https://notary.docker.io"

/-- The fixed platform list `platforms` of docker.go. -/
def platforms : List String :=
  ["linux/amd64", "linux/arm64", "linux/s390x", "linux/riscv64"]

/-- Resolved registry credentials (`dockertypes.AuthConfig`, the two fields
this file reads). -/
structure AuthConfig where
  username : String
  password : String
deriving DecidableEq, Repr

/-- `ocispec.Platform` (the three fields docker.go sets). -/
structure Platform where
  os : String
  architecture : String
  variant : String
deriving DecidableEq, Repr

/-- `types.ManifestEntry` of manifest-tool (the fields docker.go sets). -/
structure ManifestEntry where
  image : String
  platform : Platform
deriving DecidableEq, Repr

/-- Validation failure of `manifestPush`: the Go error
`platform argument %d is not of form os/arch: %s`, carrying the positional
index and the offending platform string. -/
inductive PlatformError where
  | badPlatform (i : Nat) (platform : String)
deriving DecidableEq, Repr

/-- The request `manifestPush` hands to
`registry.PushManifestList(auth.Username, auth.Password, yamlInput, true,
false, false, "")`: credentials, the `types.YAMLInput{Image, Manifests}`
value, the three boolean policy flags in call order (ignore-missing,
allow-insecure, plain-http) and the trailing config-file string. -/
structure PushManifestListCall where
  username : String
  password : String
  image : String
  manifests : List ManifestEntry
  ignoreMissing : Bool
  insecure : Bool
  plainHttp : Bool
  configFile : String
deriving DecidableEq, Repr

/-- Body of the `for i, platform := range platforms` loop of `manifestPush`:
split the platform string on `/`; 2 parts give os/arch with empty variant,
3 parts give os/arch/variant, anything else is the positional error; the
entry image is `fmt.Sprintf("%s-%s", img, arch)`. -/
def buildEntry (img : String) (i : Nat) (platform : String) :
    Except PlatformError ManifestEntry :=
  match goSplit platform '/' with
  | [os, arch] => .ok ⟨img ++ "-" ++ arch, ⟨os, arch, ""⟩⟩
  | [os, arch, variant] => .ok ⟨img ++ "-" ++ arch, ⟨os, arch, variant⟩⟩
  | _ => .error (.badPlatform i platform)

/-- The whole loop of `manifestPush`, returning on the first malformed
platform string, `i` being the index of the first element of the list. -/
def buildEntries (img : String) : Nat → List String → Except PlatformError (List ManifestEntry)
  | _, [] => .ok []
  | i, p :: ps =>
    match buildEntry img i p with
    | .error e => .error e
    | .ok e =>
      match buildEntries img (i + 1) ps with
      | .error e2 => .error e2
      | .ok es => .ok (e :: es)

/-- `manifestPush` generalized over the platform list it iterates: on success
it produces the exact `PushManifestListCall` submitted to the registry
client; a malformed platform aborts before any registry call. -/
def manifestPushWith (ps : List String) (img : String) (auth : AuthConfig) :
    Except PlatformError PushManifestListCall :=
  match buildEntries img 0 ps with
  | .error e => .error e
  | .ok es => .ok ⟨auth.username, auth.password, img, es, true, false, false, ""⟩

/-- `manifestPush(img, auth)` of docker.go: the loop over the fixed
`platforms` list. -/
def manifestPush (img : String) (auth : AuthConfig) :
    Except PlatformError PushManifestListCall :=
  manifestPushWith platforms img auth

/-- Validation failures of `signManifest`, in source order: image reference
not of the form repo:tag, digest not of the form algo:hash, algorithm other
than sha256. Each carries the offending value, as the Go error message does. -/
inductive SignError where
  | badImage (img : String)
  | badDigest (digest : String)
  | badAlgo (algo : String)
deriving DecidableEq, Repr

/-- The notary subprocess invocation `signManifest` assembles:
`exec.Command("notary", args...)`. `authUserPass` is the
`username:password` string whose standard base64 encoding (performed by the
external `encoding/base64` library) is injected as the `NOTARY_AUTH`
environment variable; `NOTARY_DELEGATION_PASSPHRASE` is copied from the
ambient environment and is not modelled. -/
structure NotaryCall where
  args : List String
  authUserPass : String
deriving DecidableEq, Repr

/-- `signManifest(img, digest, length, auth)` of docker.go, with the ambient
`HOME` environment variable passed explicitly. On success it produces the
exact notary invocation; each validation failure happens before any
subprocess is started. Go splits with `strings.Split` and reads parts 0 and
1, ignoring any further parts, which the two leading match patterns mirror. -/
def signManifest (home img digest : String) (length : Int) (auth : AuthConfig) :
    Except SignError NotaryCall :=
  match goSplit img ':' with
  | repo :: tag :: _ =>
    match goSplit digest ':' with
    | algo :: hash :: _ =>
      if algo ≠ "sha256" then .error (.badAlgo algo)
      else
        .ok ⟨["-s", notaryServer,
              "-d", pathJoin home ".docker/trust",
              "addhash",
              "-p", "docker.io/" ++ repo,
              tag,
              toString length,
              "--sha256", hash,
              "-r", "targets/releases"],
             auth.username ++ ":" ++ auth.password⟩
    | _ => .error (.badDigest digest)
  | _ => .error (.badImage img)

-- The Command Executor (`command`) and `pull`.

/-- Classification of the error `cmd.Run()` can produce, by the dynamic type
tests the Go code applies: a `*exec.Error` (with or without
`Err == exec.ErrNotFound`), a `*exec.ExitError` (process ran and exited
non-zero), or anything else. -/
inductive CmdError where
  | execErr (notFound : Bool)
  | exitErr
  | otherErr
deriving DecidableEq, Repr

/-- `isExecErrNotFound` of docker.go. -/
def isExecErrNotFound : CmdError → Bool
  | .execErr notFound => notFound
  | _ => false

/-- Error value `command` returns to its caller: the distinguished
`linuxkit pkg requires docker to be installed` error, the `cmd.Run()` error
passed through as-is, or the build-context copy error from `eg.Wait()`. -/
inductive GoError where
  | notInstalled
  | cmd (e : CmdError)
  | copy
deriving DecidableEq, Repr

/-- The fixed proxy variable list `proxyEnvVars` of docker.go. -/
def proxyEnvVars : List String :=
  ["http_proxy", "https_proxy", "no_proxy", "ftp_proxy", "all_proxy",
   "HTTP_PROXY", "HTTPS_PROXY", "NO_PROXY", "FTP_PROXY", "ALL_PROXY"]

/-- Name of the JSON build-args environment variable (`buildArgsEnv`). -/
def buildArgsEnv : String := "LK_BUILD_ARGS"

/-- The proxy loop of `command`: for each name of `proxyEnvVars` set in the
environment (`os.LookupEnv` modelled as `env`), append
`--build-arg name=value`. -/
def proxyBuildArgs (env : String → Option String) : List String :=
  proxyEnvVars.foldl
    (fun acc name =>
      match env name with
      | some value => acc ++ ["--build-arg", name ++ "=" ++ value]
      | none => acc)
    []

/-- The `LK_BUILD_ARGS` loop of `command`. `decoded` is the outcome of
`os.LookupEnv(buildArgsEnv)` followed by `json.Unmarshal` into a
`map[string]string` (external collaborators): `none` when the variable is
unset or its value is malformed JSON — in which case the error is discarded
and no arguments are injected — and `some kvs` (the map in some iteration
order) when decoding succeeds. -/
def extraBuildArgs (decoded : Option (List (String × String))) : List String :=
  match decoded with
  | none => []
  | some kvs =>
    kvs.foldl (fun acc kv => acc ++ ["--build-arg", kv.1 ++ "=" ++ kv.2]) []

/-- The `dockerRunner` struct of docker.go; `hasCtx` stands for
`dr.ctx != nil` (the optional build context). -/
structure dockerRunner where
  dct : Bool
  cache : Bool
  sign : Bool
  hasCtx : Bool
deriving DecidableEq, Repr

/-- Whether `command` appends `DOCKER_CONTENT_TRUST=1` to the subprocess
environment: trust is enabled and the invocation is not an unsigned push. -/
def commandDctEnv (dr : dockerRunner) (args : List String) : Bool :=
  let isPush :=
    match args with
    | "image" :: "push" :: _ => true
    | _ => false
  dr.dct && (!isPush || dr.sign)

/-- The argument-vector rewrite of `command`: `cmd.Args` starts as
`docker :: args`; for a `build` invocation the assembled `--build-arg` pairs
are spliced in after the first two elements, and when a build context is
present the last argument is replaced by `-` (read context from stdin). -/
def commandArgs (dr : dockerRunner) (args : List String)
    (env : String → Option String) (decoded : Option (List (String × String))) :
    List String :=
  let cmdArgs := "docker" :: args
  match args with
  | "build" :: _ =>
    let buildArgs := proxyBuildArgs env ++ extraBuildArgs decoded
    let newArgs := cmdArgs.take 2 ++ buildArgs ++ cmdArgs.drop 2
    if dr.hasCtx then newArgs.dropLast ++ ["-"] else newArgs
  | _ => cmdArgs

/-- `command(args...)` of docker.go: the final argument vector handed to
`exec.Command` together with the returned error. `runErr` is the outcome of
`cmd.Run()` on that vector; `copyErr` is whether the background
`dr.ctx.Copy` goroutine failed (only consulted by `eg.Wait()` when the
goroutine was started, i.e. on a build with a context, and only reached when
`cmd.Run()` succeeded). A `*exec.Error` with `ErrNotFound` becomes the
distinguished not-installed error; every other run error is returned
unchanged. -/
def command (dr : dockerRunner) (args : List String)
    (env : String → Option String) (decoded : Option (List (String × String)))
    (runErr : Option CmdError) (copyErr : Bool) :
    List String × Except GoError Unit :=
  let finalArgs := commandArgs dr args env decoded
  let copyActive :=
    match args with
    | "build" :: _ => dr.hasCtx
    | _ => false
  let result : Except GoError Unit :=
    match runErr with
    | some e => if isExecErrNotFound e then .error .notInstalled else .error (.cmd e)
    | none => if copyActive && copyErr then .error .copy else .ok ()
  (finalArgs, result)

/-- `pull(img)` of docker.go: `command("image", "pull", img)`, mapping
success to `(true, nil)`, a `*exec.ExitError` to the soft `(false, nil)`,
and every other error to `(false, err)`. -/
def pull (dr : dockerRunner) (img : String)
    (env : String → Option String) (decoded : Option (List (String × String)))
    (runErr : Option CmdError) (copyErr : Bool) :
    Bool × Option GoError :=
  match (command dr ["image", "pull", img] env decoded runErr copyErr).2 with
  | .ok _ => (true, none)
  | .error (.cmd .exitErr) => (false, none)
  | .error e => (false, some e)

-- The pipeline (`pushWithManifest`) and its external-process trace.

/-- One external process invocation observable from `pushWithManifest`: the
engine `image push`, the manifest-list push performed by the registry client,
or the notary subprocess. -/
inductive Invocation where
  | enginePush (img : String)
  | manifestListPush (call : PushManifestListCall)
  | notary (call : NotaryCall)
deriving DecidableEq, Repr

/-- Whether an invocation is the Trust Signer subprocess. -/
def Invocation.isNotary : Invocation → Bool
  | .notary _ => true
  | _ => false

/-- Error taxonomy of a `pushWithManifest` run. Opaque collaborator failures
keep only their stage (their Go payloads pass through unchanged, carrying no
structure this file inspects); validation failures keep their payload. -/
inductive PipelineError where
  | pushError
  | authError
  | platformError (e : PlatformError)
  | registryError
  | signError (e : SignError)
  | notaryError
deriving DecidableEq, Repr

/-- Outcomes of the external collaborators for one pipeline run: the engine
push result per image, `getDockerAuth()`, the registry client response
(digest and length on success) per `PushManifestListCall`, the notary
process result per invocation, and the ambient `HOME`. Error payloads of the
collaborators are opaque, hence `Unit`. -/
structure PushEnv where
  pushResult : String → Except Unit Unit
  authResult : Except Unit AuthConfig
  registryResult : PushManifestListCall → Except Unit (String × Int)
  notaryResult : NotaryCall → Except Unit Unit
  home : String

/-- The `pushManifest` stage: run `manifestPush` and, when composition
succeeds, submit the call to the registry client, yielding its digest and
length. The trace records the registry call when (and only when) one is
made. -/
def manifestStage (env : PushEnv) (img : String) (auth : AuthConfig) :
    List Invocation × Except PipelineError (String × Int) :=
  match manifestPush img auth with
  | .error e => ([], .error (.platformError e))
  | .ok call =>
    ([.manifestListPush call],
      match env.registryResult call with
      | .ok dl => .ok dl
      | .error _ => .error .registryError)

/-- The signing stage: run `signManifest` and, when validation succeeds,
start the notary subprocess. -/
def signStage (env : PushEnv) (img digest : String) (length : Int)
    (auth : AuthConfig) : List Invocation × Except PipelineError Unit :=
  match signManifest env.home img digest length auth with
  | .error e => ([], .error (.signError e))
  | .ok call =>
    ([.notary call],
      match env.notaryResult call with
      | .ok _ => .ok ()
      | .error _ => .error .notaryError)

/-- `pushWithManifest(img, suffix, pushImage, pushManifest, sign)` of
docker.go, returning the ordered trace of external process invocations
together with the result. Stage order and the flag logic follow the source:
optional engine push of `img+suffix`, mandatory auth resolution, optional
manifest push (digest and length default to `""` and `0` when skipped),
then nothing further when `dr.dct` is unset or `sign` is false, otherwise
`signManifest(img, digest, l, auth)`. -/
def pushWithManifest (dr : dockerRunner) (env : PushEnv) (img sfx : String)
    (pushImage pushManifest sign : Bool) :
    List Invocation × Except PipelineError Unit :=
  let s1 : List Invocation × Except PipelineError Unit :=
    if pushImage then
      ([.enginePush (img ++ sfx)],
        match env.pushResult (img ++ sfx) with
        | .ok _ => .ok ()
        | .error _ => .error .pushError)
    else ([], .ok ())
  match s1.2 with
  | .error e => (s1.1, .error e)
  | .ok _ =>
    match env.authResult with
    | .error _ => (s1.1, .error .authError)
    | .ok auth =>
      let s2 :=
        if pushManifest then manifestStage env img auth
        else ([], .ok ("", 0))
      match s2.2 with
      | .error e => (s1.1 ++ s2.1, .error e)
      | .ok (digest, l) =>
        if !dr.dct then (s1.1 ++ s2.1, .ok ())
        else if !sign then (s1.1 ++ s2.1, .ok ())
        else
          let s3 := signStage env img digest l auth
          (s1.1 ++ s2.1 ++ s3.1, s3.2)

/-- The `PushManifestListCall` that `manifestPush img auth` produces for the
fixed `platforms` list (used to state and reuse its normal form). -/
def fixedCall (img : String) (auth : AuthConfig) : PushManifestListCall :=
  ⟨auth.username, auth.password, img,
    [⟨img ++ "-" ++ "amd64", ⟨"linux", "amd64", ""⟩⟩,
     ⟨img ++ "-" ++ "arm64", ⟨"linux", "arm64", ""⟩⟩,
     ⟨img ++ "-" ++ "s390x", ⟨"linux", "s390x", ""⟩⟩,
     ⟨img ++ "-" ++ "riscv64", ⟨"linux", "riscv64", ""⟩⟩],
    true, false, false, ""⟩

/-- A sample collaborator environment in which every external call succeeds. -/
def envAllOk : PushEnv :=
  ⟨fun _ => .ok (), .ok ⟨"usr", "pwd"⟩, fun _ => .ok ("sha256:d4c9", 5),
   fun _ => .ok (), "/root"⟩

/-! Lemmas about `splitChar` and `goSplit`. -/

theorem splitChar_ne_nil (sep : Char) (l : List Char) : splitChar sep l ≠ [] := by
  induction l with
  | nil => simp [splitChar]
  | cons c rest ih =>
    simp only [splitChar]
    by_cases h : c = sep
    · simp [h]
    · simp only [if_neg h]
      cases splitChar sep rest <;> simp

theorem splitChar_not_mem (sep : Char) (l : List Char) (h : sep ∉ l) :
    splitChar sep l = [l] := by
  induction l with
  | nil => rfl
  | cons c rest ih =>
    have hc : ¬c = sep := fun e => h (e ▸ List.mem_cons_self c rest)
    have hrest : sep ∉ rest := fun m => h (List.mem_cons_of_mem _ m)
    simp [splitChar, hc, ih hrest]

theorem splitChar_append (sep : Char) (a b : List Char) (h : sep ∉ a) :
    splitChar sep (a ++ sep :: b) = a :: splitChar sep b := by
  induction a with
  | nil => simp [splitChar]
  | cons c a ih =>
    have hc : ¬c = sep := fun e => h (e ▸ List.mem_cons_self c a)
    have ha : sep ∉ a := fun m => h (List.mem_cons_of_mem _ m)
    simp [splitChar, hc, ih ha]

theorem two_le_splitChar_length (sep : Char) (l : List Char) (h : sep ∈ l) :
    2 ≤ (splitChar sep l).length := by
  induction l with
  | nil => cases h
  | cons c rest ih =>
    by_cases hc : c = sep
    · have hne := splitChar_ne_nil sep rest
      simp only [splitChar, if_pos hc, List.length_cons]
      cases hr : splitChar sep rest with
      | nil => exact absurd hr hne
      | cons t ts => simp
    · have hmem : sep ∈ rest := by
        rcases List.mem_cons.mp h with h1 | h2
        · exact absurd h1.symm hc
        · exact h2
      have := ih hmem
      simp only [splitChar, if_neg hc]
      cases hr : splitChar sep rest with
      | nil => exact absurd hr (splitChar_ne_nil sep rest)
      | cons t ts =>
        rw [hr] at this
        simpa using this

theorem goSplit_not_mem (s : String) (sep : Char) (h : sep ∉ s.data) :
    goSplit s sep = [s] := by
  simp [goSplit, splitChar_not_mem sep s.data h]

theorem goSplit_length (s : String) (sep : Char) :
    (goSplit s sep).length = (splitChar sep s.data).length := by
  simp [goSplit]

theorem two_le_goSplit_length (s : String) (sep : Char) (h : sep ∈ s.data) :
    2 ≤ (goSplit s sep).length := by
  rw [goSplit_length]
  exact two_le_splitChar_length sep s.data h

theorem goSplit_append_colon (a b : String) (ha : (':' : Char) ∉ a.data)
    (hb : (':' : Char) ∉ b.data) : goSplit (a ++ ":" ++ b) ':' = [a, b] := by
  have hdata : (a ++ ":" ++ b).data = a.data ++ ':' :: b.data := by
    have h1 : (a ++ ":" ++ b).data = (a.data ++ [':']) ++ b.data := rfl
    rw [h1, List.append_assoc]
    rfl
  simp [goSplit, hdata, splitChar_append ':' a.data b.data ha,
    splitChar_not_mem ':' b.data hb]

/-! Lemmas about the Manifest Composer. -/

theorem manifestPush_eq (img : String) (auth : AuthConfig) :
    manifestPush img auth = .ok (fixedCall img auth) := rfl

theorem buildEntries_ok_spec (img : String) :
    ∀ (ps : List String) (i : Nat) (es : List ManifestEntry),
      buildEntries img i ps = .ok es →
      es.length = ps.length ∧
      ∀ j (hj : j < ps.length) (hj2 : j < es.length),
        buildEntry img (i + j) (ps.get ⟨j, hj⟩) = .ok (es.get ⟨j, hj2⟩) := by
  intro ps
  induction ps with
  | nil =>
    intro i es h
    simp only [buildEntries] at h
    cases h
    exact ⟨rfl, fun j hj => absurd hj (Nat.not_lt_zero j)⟩
  | cons p ps ih =>
    intro i es h
    simp only [buildEntries] at h
    cases he : buildEntry img i p with
    | error e => rw [he] at h; cases h
    | ok e =>
      rw [he] at h
      cases hes : buildEntries img (i + 1) ps with
      | error e2 => rw [hes] at h; cases h
      | ok es2 =>
        rw [hes] at h
        cases h
        obtain ⟨hlen, hidx⟩ := ih (i + 1) es2 hes
        refine ⟨by simp [hlen], ?_⟩
        intro j hj hj2
        cases j with
        | zero => simpa using he
        | succ k =>
          have hk : k < ps.length := Nat.lt_of_succ_lt_succ hj
          have hk2 : k < es2.length := Nat.lt_of_succ_lt_succ hj2
          have := hidx k hk hk2
          simpa [Nat.add_comm, Nat.add_assoc, Nat.add_left_comm] using this

theorem manifestStage_fst (env : PushEnv) (img : String) (auth : AuthConfig) :
    (manifestStage env img auth).1 = [.manifestListPush (fixedCall img auth)] := by
  simp [manifestStage, manifestPush_eq]

/-! Claim theorems. -/

/-- Claim C1, counterexample. The claim states that `manifestPush` submits
the manifest list with the ignore-missing-entries policy not set (false).
On the concrete input `example/app` the submitted
`registry.PushManifestList` call carries ignore-missing = `true` (the first
boolean of the call), refuting the claim: a missing per-architecture image
is tolerated, not a push failure. -/
theorem C1_counterexample :
    manifestPush "example/app" ⟨"user", "pass"⟩ =
      .ok ⟨"user", "pass", "example/app",
        [⟨"example/app-amd64", ⟨"linux", "amd64", ""⟩⟩,
         ⟨"example/app-arm64", ⟨"linux", "arm64", ""⟩⟩,
         ⟨"example/app-s390x", ⟨"linux", "s390x", ""⟩⟩,
         ⟨"example/app-riscv64", ⟨"linux", "riscv64", ""⟩⟩],
        true, false, false, ""⟩ := rfl

/-- Claim C1, amended: `manifestPush` submits the Manifest List Input to the
registry push with ignore-missing-entries set to `true` (an expected
per-architecture image absent from the registry is skipped rather than
failing the push), with allow-insecure `false`, plain-http `false`, and no
external manifest-list file override, forwarding the credentials
unchanged. -/
theorem C1_manifestPush_policy (img : String) (auth : AuthConfig) :
    ∃ call, manifestPush img auth = .ok call
      ∧ call.ignoreMissing = true
      ∧ call.insecure = false
      ∧ call.plainHttp = false
      ∧ call.configFile = ""
      ∧ call.username = auth.username
      ∧ call.password = auth.password
      ∧ call.image = img :=
  ⟨fixedCall img auth, manifestPush_eq img auth, rfl, rfl, rfl, rfl, rfl, rfl, rfl⟩

/-- Claim C10: every entry of the fixed four-element platform list splits
into exactly two slash-separated parts, so the platform-validation error
branch of `manifestPush` is unreachable and every invocation reaches the
registry push call, with one manifest entry per platform in list order. -/
theorem C10_platforms_wellformed :
    platforms.all (fun p => (goSplit p '/').length == 2) = true
    ∧ ∀ (img : String) (auth : AuthConfig),
        manifestPush img auth =
          .ok ⟨auth.username, auth.password, img,
            [⟨img ++ "-" ++ "amd64", ⟨"linux", "amd64", ""⟩⟩,
             ⟨img ++ "-" ++ "arm64", ⟨"linux", "arm64", ""⟩⟩,
             ⟨img ++ "-" ++ "s390x", ⟨"linux", "s390x", ""⟩⟩,
             ⟨img ++ "-" ++ "riscv64", ⟨"linux", "riscv64", ""⟩⟩],
            true, false, false, ""⟩ :=
  ⟨rfl, fun _ _ => rfl⟩

/-- Claim C6: a platform string with 2 or 3 slash-separated parts yields a
manifest entry referencing `base image ++ "-" ++ architecture` with os,
architecture and variant preserved exactly; any other part count yields the
validation error carrying the entry position and value; an error during
composition aborts `manifestPush` before any registry call; and on success
the entries follow the platform list order, position by position. -/
theorem C6_manifestEntry_composition (img : String) (auth : AuthConfig)
    (i : Nat) (p : String) (ps : List String) :
    ((goSplit p '/').length = 2 ∨ (goSplit p '/').length = 3 →
      ∃ os arch variant,
        (goSplit p '/' = [os, arch] ∧ variant = ""
          ∨ goSplit p '/' = [os, arch, variant])
        ∧ buildEntry img i p = .ok ⟨img ++ "-" ++ arch, ⟨os, arch, variant⟩⟩)
    ∧ ((goSplit p '/').length ≠ 2 ∧ (goSplit p '/').length ≠ 3 →
        buildEntry img i p = .error (.badPlatform i p))
    ∧ (∀ e, buildEntries img 0 ps = .error e →
        manifestPushWith ps img auth = .error e)
    ∧ (∀ es, buildEntries img i ps = .ok es →
        es.length = ps.length ∧
        ∀ j (hj : j < ps.length) (hj2 : j < es.length),
          buildEntry img (i + j) (ps.get ⟨j, hj⟩) = .ok (es.get ⟨j, hj2⟩)) := by
  refine ⟨?_, ?_, ?_, ?_⟩
  · intro h
    rcases h with h2 | h3
    · obtain ⟨os, arch, hl⟩ := List.length_eq_two.mp h2
      exact ⟨os, arch, "", Or.inl ⟨hl, rfl⟩, by simp [buildEntry, hl]⟩
    · obtain ⟨os, arch, variant, hl⟩ := List.length_eq_three.mp h3
      exact ⟨os, arch, variant, Or.inr hl, by simp [buildEntry, hl]⟩
  · rintro ⟨h2, h3⟩
    rcases hgs : goSplit p '/' with _ | ⟨a, _ | ⟨b, _ | ⟨c, rest⟩⟩⟩
    · simp [buildEntry, hgs]
    · simp [buildEntry, hgs]
    · rw [hgs] at h2; simp at h2
    · rw [hgs] at h3
      simp at h3
      cases rest with
      | nil => exact absurd rfl h3
      | cons d rest2 => simp [buildEntry, hgs]
  · intro e h
    simp [manifestPushWith, h]
  · exact buildEntries_ok_spec img ps i

/-- Claim C6, witness: the single-segment platform string `windows` at
position 0 produces the positional validation error. -/
theorem C6_witness :
    buildEntry "example/app" 0 "windows" = .error (.badPlatform 0 "windows") :=
  (C6_manifestEntry_composition "example/app" ⟨"u", "p"⟩ 0 "windows" []).2.1
    (by decide)

/-- Claim C2, counterexample. The claim states that an image reference whose
tag portion (the part after the first colon) is empty fails validation
before any subprocess. For `repo:` the split yields the two parts
`["repo", ""]`, so validation passes and the notary invocation is assembled
with an empty tag argument — no validation error is returned. -/
theorem C2_counterexample :
    goSplit "repo:" ':' = ["repo", ""]
    ∧ signManifest "/root" "repo:" "sha256:abcd" 0 ⟨"usr", "pwd"⟩ =
        .ok ⟨["-s", "https://notary.docker.io", "-d", "/root/.docker/trust",
              "addhash", "-p", "docker.io/repo", "", "0", "--sha256", "abcd",
              "-r", "targets/releases"], "usr:pwd"⟩ :=
  ⟨rfl, rfl⟩

/-- Claim C2, amended: for every image reference containing no colon at all,
`signManifest` returns the image-reference validation error before any
subprocess is assembled; a reference containing a colon — even with an empty
tag portion — passes the reference validation (the empty tag is not
rejected). -/
theorem C2_signManifest_image_validation (home img digest : String) (l : Int)
    (auth : AuthConfig) :
    ((':' : Char) ∉ img.data →
      signManifest home img digest l auth = .error (.badImage img))
    ∧ ((':' : Char) ∈ img.data →
      ∀ e, signManifest home img digest l auth ≠ .error (.badImage e)) := by
  constructor
  · intro h
    simp [signManifest, goSplit_not_mem img ':' h]
  · intro hmem e
    have hlen := two_le_goSplit_length img ':' hmem
    rcases hgs : goSplit img ':' with _ | ⟨r, _ | ⟨t, rest⟩⟩
    · rw [hgs] at hlen; simp at hlen
    · rw [hgs] at hlen; simp at hlen
    · simp only [signManifest, hgs]
      rcases goSplit digest ':' with _ | ⟨a, _ | ⟨h2, rest2⟩⟩ <;> simp
      split <;> simp

/-- Claim C2, witness: the colon-free reference `img` is rejected. -/
theorem C2_witness :
    signManifest "/root" "img" "sha256:abcd" 0 ⟨"usr", "pwd"⟩ =
      .error (.badImage "img") :=
  (C2_signManifest_image_validation "/root" "img" "sha256:abcd" 0
    ⟨"usr", "pwd"⟩).1 (by decide)

/-- Claim C7: for every digest whose part before the first colon is not
exactly `sha256` (a colon-free digest counting whole), `signManifest`
returns a validation error — no notary invocation is assembled — whatever
the hash value, the image reference, or the remaining inputs. -/
theorem C7_signManifest_algo_validation (home img digest : String) (l : Int)
    (auth : AuthConfig)
    (halgo : (goSplit digest ':').headD "" ≠ "sha256") :
    ∃ e, signManifest home img digest l auth = .error e := by
  rcases hgi : goSplit img ':' with _ | ⟨r, _ | ⟨t, rest⟩⟩
  · exact ⟨.badImage img, by simp [signManifest, hgi]⟩
  · exact ⟨.badImage img, by simp [signManifest, hgi]⟩
  · rcases hgd : goSplit digest ':' with _ | ⟨a, _ | ⟨h2, rest2⟩⟩
    · exact ⟨.badDigest digest, by simp [signManifest, hgi, hgd]⟩
    · exact ⟨.badDigest digest, by simp [signManifest, hgi, hgd]⟩
    · rw [hgd] at halgo
      simp only [List.headD_cons] at halgo
      exact ⟨.badAlgo a, by simp [signManifest, hgi, hgd, halgo]⟩

/-- Claim C7, witness: the digest `md5:aaa` is rejected before any
subprocess, the validation error naming the offending algorithm. -/
theorem C7_witness :
    ∃ e, signManifest "/root" "repo:tag" "md5:aaa" 3 ⟨"usr", "pwd"⟩ =
      .error e :=
  C7_signManifest_algo_validation "/root" "repo:tag" "md5:aaa" 3
    ⟨"usr", "pwd"⟩ (by decide)

/-- Claim C5, counterexample. The claim states the argument vector contains
exactly the strings `repo`, `tag` and the 64 hex characters with no other
transformation. For repo `r`, tag `t` and a valid 64-hex-character digest,
the vector contains `t` and the hash but not `r`: the repo only appears
transformed into the namespaced argument `docker.io/r`. -/
theorem C5_counterexample :
    signManifest "/h" "r:t"
        "sha256:0123456789abcdef0123456789abcdef0123456789abcdef0123456789abcdef"
        7 ⟨"u", "p"⟩ =
      .ok ⟨["-s", "https://notary.docker.io", "-d", "/h/.docker/trust",
            "addhash", "-p", "docker.io/r", "t", "7", "--sha256",
            "0123456789abcdef0123456789abcdef0123456789abcdef0123456789abcdef",
            "-r", "targets/releases"], "u:p"⟩
    ∧ "r" ∉ (["-s", "https://notary.docker.io", "-d", "/h/.docker/trust",
            "addhash", "-p", "docker.io/r", "t", "7", "--sha256",
            "0123456789abcdef0123456789abcdef0123456789abcdef0123456789abcdef",
            "-r", "targets/releases"] : List String)
    ∧ "docker.io/r" ∈ (["-s", "https://notary.docker.io", "-d",
            "/h/.docker/trust", "addhash", "-p", "docker.io/r", "t", "7",
            "--sha256",
            "0123456789abcdef0123456789abcdef0123456789abcdef0123456789abcdef",
            "-r", "targets/releases"] : List String) :=
  ⟨rfl, by decide, by decide⟩

/-- Claim C5, amended: for every valid digest string `sha256:` followed by
64 hex characters and every reference `repo:tag` (repo and tag colon-free),
the argument vector `signManifest` hands to the notary tool carries `tag`
and the 64 hex characters verbatim, while `repo` appears with the single
fixed transformation of the `docker.io/` namespace, and nothing else is
derived from them. -/
theorem C5_signing_args (home repo tag hash : String) (l : Int)
    (auth : AuthConfig)
    (hr : (':' : Char) ∉ repo.data)
    (ht : (':' : Char) ∉ tag.data)
    (hhex : hash.data.length = 64 ∧ ∀ c ∈ hash.data, c ∈ "0123456789abcdef".data) :
    signManifest home (repo ++ ":" ++ tag) ("sha256:" ++ hash) l auth =
      .ok ⟨["-s", notaryServer, "-d", pathJoin home ".docker/trust",
            "addhash", "-p", "docker.io/" ++ repo, tag, toString l,
            "--sha256", hash, "-r", "targets/releases"],
           auth.username ++ ":" ++ auth.password⟩ := by
  have hhc : (':' : Char) ∉ hash.data := by
    intro hm
    have := hhex.2 ':' hm
    simp at this
  have h1 : goSplit (repo ++ ":" ++ tag) ':' = [repo, tag] :=
    goSplit_append_colon repo tag hr ht
  have h2 : goSplit ("sha256:" ++ hash) ':' = ["sha256", hash] := by
    rw [show ("sha256:" ++ hash) = ("sha256" ++ ":" ++ hash) from rfl]
    exact goSplit_append_colon "sha256" hash (by decide) hhc
  simp [signManifest, h1, h2]

/-- Claim C5, witness: an instantiation of the amended theorem at a concrete
home, reference, 64-hex digest, length and credentials. -/
theorem C5_witness :
    signManifest "/home/me" ("myrepo" ++ ":" ++ "latest")
        ("sha256:" ++
          "00112233445566778899aabbccddeeff00112233445566778899aabbccddeeff")
        42 ⟨"usr", "pwd"⟩ =
      .ok ⟨["-s", "https://notary.docker.io", "-d", "/home/me/.docker/trust",
            "addhash", "-p", "docker.io/myrepo", "latest", "42", "--sha256",
            "00112233445566778899aabbccddeeff00112233445566778899aabbccddeeff",
            "-r", "targets/releases"], "usr:pwd"⟩ :=
  C5_signing_args "/home/me" "myrepo" "latest"
    "00112233445566778899aabbccddeeff00112233445566778899aabbccddeeff"
    42 ⟨"usr", "pwd"⟩ (by decide) (by decide) ⟨by decide, by decide⟩

/-- Claim C4: enumerated by every possible `cmd.Run()` outcome, `pull`
returns `(true, nil)` on success, the soft `(false, nil)` exactly when the
failure is a process exit error, and propagates every other failure as
`(false, err)` — including the distinguished not-installed error produced
from a binary-not-found exec error, and an exec error of any other kind
passed through unchanged. -/
theorem C4_pull_classification (dr : dockerRunner) (img : String)
    (env : String → Option String) (decoded : Option (List (String × String)))
    (copyErr : Bool) :
    pull dr img env decoded none copyErr = (true, none)
    ∧ pull dr img env decoded (some .exitErr) copyErr = (false, none)
    ∧ pull dr img env decoded (some (.execErr true)) copyErr =
        (false, some .notInstalled)
    ∧ pull dr img env decoded (some (.execErr false)) copyErr =
        (false, some (.cmd (.execErr false)))
    ∧ pull dr img env decoded (some .otherErr) copyErr =
        (false, some (.cmd .otherErr)) :=
  ⟨rfl, rfl, rfl, rfl, rfl⟩

/-- Claim C9: when the `LK_BUILD_ARGS` decode fails (malformed JSON, decoded
outcome `none`), the build argument vector holds exactly the proxy-derived
build args and nothing from the variable, the command outcome is identical
to what any decode outcome would give (the decode error is discarded), and
with a successful process run the build succeeds. -/
theorem C9_malformed_build_args (dr : dockerRunner) (rest : List String)
    (env : String → Option String) :
    commandArgs dr ("build" :: rest) env none =
      (if dr.hasCtx
        then (["docker", "build"] ++ proxyBuildArgs env ++ rest).dropLast ++ ["-"]
        else ["docker", "build"] ++ proxyBuildArgs env ++ rest)
    ∧ extraBuildArgs none = []
    ∧ (∀ (decoded : Option (List (String × String)))
        (runErr : Option CmdError) (copyErr : Bool),
        (command dr ("build" :: rest) env decoded runErr copyErr).2 =
          (command dr ("build" :: rest) env none runErr copyErr).2)
    ∧ (command dr ("build" :: rest) env none none false).2 = .ok () := by
  refine ⟨?_, rfl, fun _ _ _ => rfl, ?_⟩
  · obtain ⟨dct, cache, sign, hasCtx⟩ := dr
    cases hasCtx <;> simp [commandArgs, extraBuildArgs]
  · simp [command]

/-- Claim C8: running the pipeline with `pushImage = false`,
`pushManifest = false` and `sign = false` performs zero external process
invocations whatever the collaborators would have answered, and — auth
resolution being the one remaining step, a credential-file read, not a
process — returns success whenever auth resolves. -/
theorem C8_skip_flags (dr : dockerRunner) (env : PushEnv) (img sfx : String) :
    (pushWithManifest dr env img sfx false false false).1 = []
    ∧ ∀ (pushR : String → Except Unit Unit) (a : AuthConfig)
        (regR : PushManifestListCall → Except Unit (String × Int))
        (notR : NotaryCall → Except Unit Unit) (home : String),
        pushWithManifest dr ⟨pushR, .ok a, regR, notR, home⟩ img sfx
          false false false = ([], .ok ()) := by
  obtain ⟨dct, cache, sign, hasCtx⟩ := dr
  constructor
  · rcases h : env.authResult with _ | a <;>
      cases dct <;> simp [pushWithManifest, h]
  · intro pushR a regR notR home
    cases dct <;> simp [pushWithManifest]

/-- Claim C3: given that the stages before signing succeed, (i) when content
trust is disabled on the runner, or enabled with the sign flag false, the
pipeline returns success and its invocation trace holds no Trust Signer
invocation; (ii) when trust is enabled, sign is true and the manifest push
was disabled, the pipeline still hands `signManifest` the empty digest
string and zero length — its outcome is exactly the `signManifest` response
to those values, the digest-validation error whenever the image reference
itself is well formed. -/
theorem C3_sign_gating (dr : dockerRunner) (env : PushEnv) (img sfx : String)
    (pI pM s : Bool) (auth : AuthConfig)
    (h1 : pI = true → env.pushResult (img ++ sfx) = .ok ())
    (h2 : env.authResult = .ok auth)
    (h3 : pM = true → ∃ dl, (manifestStage env img auth).2 = .ok dl) :
    ((dr.dct = false ∨ s = false) →
      (pushWithManifest dr env img sfx pI pM s).2 = .ok ()
      ∧ ∀ inv ∈ (pushWithManifest dr env img sfx pI pM s).1,
          inv.isNotary = false)
    ∧ (dr.dct = true → s = true →
      ∃ e, signManifest env.home img "" 0 auth = .error e
        ∧ pushWithManifest dr env img sfx pI false s =
            ((if pI then [Invocation.enginePush (img ++ sfx)] else []),
              .error (.signError e))
        ∧ ((':' : Char) ∈ img.data → e = .badDigest "")) := by
  obtain ⟨dct, cache, sg, hasCtx⟩ := dr
  constructor
  · intro hor
    cases pI with
    | false =>
      cases pM with
      | false =>
        rcases hor with hd | hs
        · subst hd
          cases s <;> simp [pushWithManifest, h2, Invocation.isNotary]
        · subst hs
          cases dct <;> simp [pushWithManifest, h2, Invocation.isNotary]
      | true =>
        obtain ⟨⟨d, l⟩, hm⟩ := h3 rfl
        rcases hor with hd | hs
        · subst hd
          cases s <;>
            simp [pushWithManifest, h2, hm, manifestStage_fst,
              Invocation.isNotary]
        · subst hs
          cases dct <;>
            simp [pushWithManifest, h2, hm, manifestStage_fst,
              Invocation.isNotary]
    | true =>
      have hp := h1 rfl
      cases pM with
      | false =>
        rcases hor with hd | hs
        · subst hd
          cases s <;> simp [pushWithManifest, hp, h2, Invocation.isNotary]
        · subst hs
          cases dct <;> simp [pushWithManifest, hp, h2, Invocation.isNotary]
      | true =>
        obtain ⟨⟨d, l⟩, hm⟩ := h3 rfl
        rcases hor with hd | hs
        · subst hd
          cases s <;>
            simp [pushWithManifest, hp, h2, hm, manifestStage_fst,
              Invocation.isNotary]
        · subst hs
          cases dct <;>
            simp [pushWithManifest, hp, h2, hm, manifestStage_fst,
              Invocation.isNotary]
  · intro hdct hs
    subst hdct
    subst hs
    have hsm : ∃ e, signManifest env.home img "" 0 auth = .error e
        ∧ ((':' : Char) ∈ img.data → e = .badDigest "") := by
      rcases hgi : goSplit img ':' with _ | ⟨r, _ | ⟨t0, rest⟩⟩
      · refine ⟨.badImage img, by simp [signManifest, hgi], fun hc => ?_⟩
        have := two_le_goSplit_length img ':' hc
        rw [hgi] at this
        simp at this
      · refine ⟨.badImage img, by simp [signManifest, hgi], fun hc => ?_⟩
        have := two_le_goSplit_length img ':' hc
        rw [hgi] at this
        simp at this
      · exact ⟨.badDigest "", by simp only [signManifest, hgi]; rfl,
          fun _ => rfl⟩
    obtain ⟨e, he, hcol⟩ := hsm
    refine ⟨e, he, ?_, hcol⟩
    cases pI with
    | false => simp [pushWithManifest, h2, signStage, he]
    | true => simp [pushWithManifest, h1 rfl, h2, signStage, he]

/-- Claim C3, witness: with trust disabled, image and manifest pushes
enabled and succeeding, the pipeline succeeds without any signer
invocation. -/
theorem C3_witness :
    (pushWithManifest ⟨false, true, false, false⟩ envAllOk "example/app"
        "-amd64" true true false).2 = .ok () :=
  ((C3_sign_gating ⟨false, true, false, false⟩ envAllOk "example/app"
      "-amd64" true true false ⟨"usr", "pwd"⟩ (fun _ => rfl) rfl
      (fun _ => ⟨("sha256:d4c9", 5), rfl⟩)).1 (Or.inl rfl)).1

end Pkglib
